import Mathlib

/-!
Verification of the filter/search, id-synthesis, tag-sampling, heart-toggle
and entry-form logic of the UIC Club Spotlight application (src/src/App.jsx),
shallowly embedded in Lean.  JavaScript strings are modelled as `List Char`,
JSON records as Lean structures with `Option` fields for fields that may be
absent, and `Math.random()` draws as explicit numeric parameters.
-/

namespace ClubSpotlight

/-- JavaScript strings are modelled as lists of characters. -/
abbrev Str := List Char

/-- Helper for writing concrete string literals in the model. -/
def str (s : String) : Str := s.data

/-- Whitespace characters stripped by `String.prototype.trim`. -/
def isJsWhitespace (c : Char) : Bool :=
  c == ' ' || c == '\t' || c == '\n' || c == '\r' || c == '\x0b' || c == '\x0c'

/-- Model of `String.prototype.trim`: strip whitespace from both ends. -/
def trim (s : Str) : Str :=
  ((s.dropWhile isJsWhitespace).reverse.dropWhile isJsWhitespace).reverse

/-- Model of `String.prototype.toLowerCase` (ASCII case mapping). -/
def lowerStr (s : Str) : Str := s.map Char.toLower

/-- `normalize` from App.jsx: trim, then lower-case. -/
def normalize (s : Str) : Str := lowerStr (trim s)

/-- Model of `Array.prototype.join(" ")`.  A missing (undefined) entry is
rendered as the empty string by `join`, which `optStr` below accounts for. -/
def joinSp (l : List Str) : Str := List.intercalate [' '] l

/-- A possibly-missing string field, as it appears inside `join`: absent
fields contribute the empty string. -/
def optStr (s : Option Str) : Str := s.getD []

/-- The `xs || []` defaulting pattern for possibly-missing list fields. -/
def optList (l : Option (List Str)) : List Str := l.getD []

/-- Model of `haystack.includes(needle)`: substring containment. -/
def strIncludes (hay needle : Str) : Bool := decide (needle <:+: hay)

/-- A club record (clubs.json shape plus user-added clubs). -/
structure Club where
  id : Nat
  name : Option Str
  description : Option Str
  interests : Option (List Str)
  vibes : Option (List Str)
  collab_needs : Option (List Str)
  contact : Option Str
  deriving DecidableEq

/-- The lower-cased, space-joined search text of a club, as built inside
`matchesQuery` in App.jsx: name, description, and every string of the
interests, vibes and collab_needs lists. -/
def clubSearchText (c : Club) : Str :=
  lowerStr (joinSp ([optStr c.name, optStr c.description]
    ++ optList c.interests ++ optList c.vibes ++ optList c.collab_needs))

/-- `matchesQuery(club, q)` from App.jsx. -/
def matchesQuery (c : Club) (q : Str) : Bool :=
  if q.isEmpty then true else strIncludes (clubSearchText c) q

/-- The normalized tag bag of a club, as built inside
`clubMatchesSelectedTags` in App.jsx. -/
def clubTagBag (c : Club) : List Str :=
  (optList c.interests ++ optList c.vibes ++ optList c.collab_needs).map normalize

/-- `clubMatchesSelectedTags(club, selectedTags)` from App.jsx. -/
def clubMatchesSelectedTags (c : Club) (selectedTags : List Str) : Bool :=
  if selectedTags.isEmpty then true
  else selectedTags.any (fun t => (clubTagBag c).contains (normalize t))

/-- The clubs branch of `discoverItems` in App.jsx: filter by selected tags,
then by the free-text query. -/
def discoverClubs (allClubs : List Club) (q : Str) (selectedTags : List Str) :
    List Club :=
  (allClubs.filter (fun club => clubMatchesSelectedTags club selectedTags)).filter
    (fun club => matchesQuery club q)

/-- C1: the clubs discover filter returns exactly the clubs satisfying both
the tag-match predicate and the text-match predicate, and the output is the
order-preserving subsequence of matching records: it equals a single `filter`
by the conjunction of the two predicates, is a sublist of the input, and
membership is characterized by the two predicates. -/
theorem discoverClubs_conj_and_order (l : List Club) (q : Str) (S : List Str) :
    discoverClubs l q S
        = l.filter (fun c => clubMatchesSelectedTags c S && matchesQuery c q) ∧
      (discoverClubs l q S).Sublist l ∧
      ∀ c, c ∈ discoverClubs l q S ↔
        c ∈ l ∧ clubMatchesSelectedTags c S = true ∧ matchesQuery c q = true := by
  refine ⟨?_, ?_, ?_⟩
  · rw [discoverClubs, List.filter_filter]
    exact List.filter_congr (fun c _ => Bool.and_comm _ _)
  · exact (List.filter_sublist _).trans (List.filter_sublist _)
  · intro c
    simp only [discoverClubs, List.mem_filter, Bool.and_eq_true, and_assoc]

/-- C2: the club text-match predicate returns true iff the query is empty or
is a substring of the lower-cased space-joined concatenation of name,
description and all interests/vibes/collab_needs strings; missing fields are
treated as empty (a club with absent fields produces the same search text as
one with present-but-empty fields). -/
theorem matchesQuery_iff_empty_or_substring (c : Club) (q : Str) :
    (matchesQuery c q = true ↔ q = [] ∨ q <:+: clubSearchText c) ∧
      ∀ i ct, clubSearchText ⟨i, none, none, none, none, none, ct⟩
        = clubSearchText ⟨i, some [], some [], some [], some [], some [], ct⟩ := by
  constructor
  · cases q with
    | nil => simp [matchesQuery]
    | cons a t => simp [matchesQuery, strIncludes]
  · intro i ct
    rfl

/-- C3: the tag-match predicate returns true iff the selected-tag list is
empty, or some selected tag normalizes to a member of the club's normalized
tag bag (OR across selected tags). -/
theorem clubMatchesSelectedTags_iff (c : Club) (S : List Str) :
    clubMatchesSelectedTags c S = true ↔
      S = [] ∨ ∃ t ∈ S, normalize t ∈ clubTagBag c := by
  cases S with
  | nil => simp [clubMatchesSelectedTags]
  | cons a t => simp [clubMatchesSelectedTags]

/-- A vendor record (vendors.json shape). -/
structure Vendor where
  id : Nat
  name : Option Str
  description : Option Str
  services : Option (List Str)
  vibes : Option (List Str)
  tags : Option (List Str)
  availability : Option (List Str)
  price_range : Option Str
  contact : Option Str
  deriving DecidableEq

/-- A request record (requests.json shape plus user-added requests). -/
structure Request where
  id : Nat
  club_name : Option Str
  title : Option Str
  description : Option Str
  needs : Option (List Str)
  budget : Option Str
  date : Option Str
  time_window : Option Str
  contact : Option Str
  deriving DecidableEq

/-- The lower-cased, space-joined search text of a vendor, as built inside
the vendors branch of `discoverItems` in App.jsx: name, description, the
services/vibes/tags/availability lists, and price_range. -/
def vendorSearchText (v : Vendor) : Str :=
  lowerStr (joinSp ([optStr v.name, optStr v.description]
    ++ optList v.services ++ optList v.vibes ++ optList v.tags
    ++ optList v.availability ++ [optStr v.price_range]))

/-- The vendor text-match predicate from the vendors branch of
`discoverItems` in App.jsx. -/
def vendorMatchesQuery (v : Vendor) (q : Str) : Bool :=
  if q.isEmpty then true else strIncludes (vendorSearchText v) q

/-- The vendors branch of `discoverItems` in App.jsx. -/
def discoverVendors (allVendors : List Vendor) (q : Str) : List Vendor :=
  allVendors.filter (fun v => vendorMatchesQuery v q)

/-- The lower-cased, space-joined search text of a request, as built inside
the requests branch of `discoverItems` in App.jsx: club_name, title,
description, the needs list, budget, date and time_window. -/
def requestSearchText (r : Request) : Str :=
  lowerStr (joinSp ([optStr r.club_name, optStr r.title, optStr r.description]
    ++ optList r.needs ++ [optStr r.budget, optStr r.date, optStr r.time_window]))

/-- The request text-match predicate from the requests branch of
`discoverItems` in App.jsx. -/
def requestMatchesQuery (r : Request) (q : Str) : Bool :=
  if q.isEmpty then true else strIncludes (requestSearchText r) q

/-- The requests branch of `discoverItems` in App.jsx. -/
def discoverRequests (allRequests : List Request) (q : Str) : List Request :=
  allRequests.filter (fun r => requestMatchesQuery r q)

/-- Search text a vendor would have under claim C4's field list (name,
description, services, vibes, tags, availability only — written from the
spec's words, for comparison with `vendorSearchText` from the source). -/
def vendorSearchTextClaimed (v : Vendor) : Str :=
  lowerStr (joinSp ([optStr v.name, optStr v.description]
    ++ optList v.services ++ optList v.vibes ++ optList v.tags
    ++ optList v.availability))

/-- A vendor whose only searchable content is its price_range field. -/
def cexVendor : Vendor :=
  { id := 1, name := some (str "A"), description := some (str "B")
  , services := some [], vibes := some [], tags := some []
  , availability := some [], price_range := some (str "zz9")
  , contact := none }

/-- C4 counterexample: the non-empty query "zz9" is matched by
`cexVendor` through its price_range field, although it is not a substring of
the concatenation of the fields claim C4 lists — so fields other than
name/description and the tag-like lists do participate in the match. -/
theorem vendor_price_range_searched :
    str "zz9" ≠ [] ∧ vendorMatchesQuery cexVendor (str "zz9") = true ∧
      ¬ str "zz9" <:+: vendorSearchTextClaimed cexVendor := by
  refine ⟨by decide, by decide, by decide⟩

/-- C4 amended: for every non-empty query q, the vendor text-match predicate
returns true iff q is a substring of the lower-cased concatenation of name,
description, the services/vibes/tags/availability strings AND price_range;
the request text-match predicate returns true iff q is a substring of the
lower-cased concatenation of club_name, title, description, the needs
strings, budget, date and time_window. -/
theorem discover_text_match_fields (v : Vendor) (r : Request) (q : Str)
    (hq : q ≠ []) :
    (vendorMatchesQuery v q = true ↔ q <:+: vendorSearchText v) ∧
      (requestMatchesQuery r q = true ↔ q <:+: requestSearchText r) := by
  cases q with
  | nil => exact absurd rfl hq
  | cons a t =>
    constructor
    · simp [vendorMatchesQuery, strIncludes]
    · simp [requestMatchesQuery, strIncludes]

/-- Witness for `discover_text_match_fields` at a concrete vendor, request
and query. -/
theorem discover_text_match_fields_witness :
    str "a" ≠ [] ∧
      ((vendorMatchesQuery cexVendor (str "a") = true ↔
          str "a" <:+: vendorSearchText cexVendor) ∧
        (requestMatchesQuery ⟨7, none, none, none, none, none, none, none, none⟩
            (str "a") = true ↔
          str "a" <:+: requestSearchText
            ⟨7, none, none, none, none, none, none, none, none⟩)) :=
  ⟨by decide, discover_text_match_fields cexVendor
    ⟨7, none, none, none, none, none, none, none, none⟩ (str "a") (by decide)⟩

/-- Filtering the same list twice by p then r is the same as doing it once. -/
theorem filter_pair_idem {α : Type _} (p r : α → Bool) (l : List α) :
    (((l.filter p).filter r).filter p).filter r = (l.filter p).filter r := by
  have h1 : ((l.filter p).filter r).filter p = (l.filter p).filter r :=
    List.filter_eq_self.mpr
      (fun a ha => (List.mem_filter.mp (List.mem_filter.mp ha).1).2)
  rw [h1]
  exact List.filter_eq_self.mpr (fun a ha => (List.mem_filter.mp ha).2)

/-- C5: the discover filter is idempotent in every mode — re-filtering an
already-filtered list with the same query and selected tags returns it
unchanged, for clubs, vendors and requests alike. -/
theorem discover_idempotent (lc : List Club) (lv : List Vendor)
    (lr : List Request) (q : Str) (S : List Str) :
    discoverClubs (discoverClubs lc q S) q S = discoverClubs lc q S ∧
      discoverVendors (discoverVendors lv q) q = discoverVendors lv q ∧
      discoverRequests (discoverRequests lr q) q = discoverRequests lr q := by
  refine ⟨filter_pair_idem _ _ lc, ?_, ?_⟩
  · exact List.filter_eq_self.mpr (fun a ha => (List.mem_filter.mp ha).2)
  · exact List.filter_eq_self.mpr (fun a ha => (List.mem_filter.mp ha).2)

/-- `toggleHeart(id)` from App.jsx, as the pure state update applied to the
previous hearted-id list: remove the id if present, otherwise prepend it. -/
def toggleHeart (prev : List Nat) (x : Nat) : List Nat :=
  if prev.contains x then prev.filter (fun y => y != x) else x :: prev

/-- C8: toggling a heart twice restores the original set of hearted ids
(order aside), and a single toggle flips the id's presence. -/
theorem toggleHeart_involutive_mem (H : List Nat) (x y : Nat) :
    (y ∈ toggleHeart (toggleHeart H x) x ↔ y ∈ H) ∧
      (x ∈ toggleHeart H x ↔ x ∉ H) := by
  by_cases hx : x ∈ H
  · have h1 : toggleHeart H x = H.filter (fun y => y != x) := by
      simp [toggleHeart, hx]
    have h2 : x ∉ H.filter (fun y => y != x) := by
      simp [List.mem_filter]
    constructor
    · rw [h1]
      have h3 : toggleHeart (H.filter (fun y => y != x)) x
          = x :: H.filter (fun y => y != x) := by
        simp [toggleHeart, List.mem_filter]
      rw [h3]
      simp only [List.mem_cons, List.mem_filter, bne_iff_ne, ne_eq]
      constructor
      · rintro (rfl | ⟨hy, _⟩) <;> assumption
      · intro hy
        by_cases hxy : y = x
        · exact Or.inl hxy
        · exact Or.inr ⟨hy, hxy⟩
    · rw [h1]
      simp [hx, h2]
  · have h1 : toggleHeart H x = x :: H := by
      simp [toggleHeart, hx]
    constructor
    · rw [h1]
      have h3 : toggleHeart (x :: H) x = (x :: H).filter (fun y => y != x) := by
        simp [toggleHeart]
      rw [h3]
      simp only [List.filter_cons, bne_self_eq_false, List.mem_filter,
        bne_iff_ne, ne_eq, if_neg, Bool.false_eq_true, not_false_eq_true]
      constructor
      · intro hy
        exact hy.1
      · intro hy
        refine ⟨hy, fun hyx => hx (hyx ▸ hy)⟩
    · rw [h1]
      simp [hx]

/-- C10: on a duplicate-free hearted-id list, a toggle keeps the list
duplicate-free; when the id is absent it is prepended exactly once, leaving
the relative order of all other ids unchanged. -/
theorem toggleHeart_nodup (H : List Nat) (x : Nat) (h : H.Nodup) :
    (toggleHeart H x).Nodup ∧ (x ∉ H → toggleHeart H x = x :: H) := by
  constructor
  · by_cases hx : x ∈ H
    · have h1 : toggleHeart H x = H.filter (fun y => y != x) := by
        simp [toggleHeart, hx]
      rw [h1]
      exact h.filter _
    · have h1 : toggleHeart H x = x :: H := by
        simp [toggleHeart, hx]
      rw [h1]
      exact List.nodup_cons.mpr ⟨hx, h⟩
  · intro hx
    simp [toggleHeart, hx]

/-- Witness for `toggleHeart_nodup` on the concrete hearted list [5, 8] and
the absent id 3. -/
theorem toggleHeart_nodup_witness :
    ([5, 8] : List Nat).Nodup ∧ (toggleHeart [5, 8] 3).Nodup ∧
      toggleHeart [5, 8] 3 = [3, 5, 8] :=
  ⟨by decide, (toggleHeart_nodup [5, 8] 3 (by decide)).1,
    (toggleHeart_nodup [5, 8] 3 (by decide)).2 (by decide)⟩

/-- Among the members of l that are at least a, strictly fewer remain once
the threshold moves past a itself (provided a is a member). -/
theorem countP_ge_succ_lt (l : List Nat) (a : Nat) (h : a ∈ l) :
    l.countP (fun y => a + 1 ≤ y) < l.countP (fun y => a ≤ y) := by
  induction l with
  | nil => cases h
  | cons b t ih =>
    rw [List.countP_cons, List.countP_cons]
    rcases List.mem_cons.mp h with rfl | hb
    · have hmono : t.countP (fun y => a + 1 ≤ y) ≤ t.countP (fun y => a ≤ y) :=
        List.countP_mono_left (fun x _ hx => by
          simp only [decide_eq_true_eq] at hx ⊢
          omega)
      have e1 : (if (decide (a + 1 ≤ a)) = true then 1 else 0) = 0 := by
        simp
      have e2 : (if (decide (a ≤ a)) = true then 1 else 0) = 1 := by
        simp
      omega
    · have hlt := ih hb
      have hind : (if (decide (a + 1 ≤ b)) = true then 1 else 0)
          ≤ (if (decide (a ≤ b)) = true then 1 else 0) := by
        by_cases hab : a + 1 ≤ b
        · have : a ≤ b := by omega
          simp [hab, this]
        · simp [hab]
      omega

/-- `nextId` from the entry forms in App.jsx: linearly probe upward from the
candidate until an id not in the existing-id set is found. -/
def nextId (existingIds : List Nat) (candidate : Nat) : Nat :=
  if candidate ∈ existingIds then nextId existingIds (candidate + 1) else candidate
termination_by existingIds.countP (fun y => candidate ≤ y)
decreasing_by exact countP_ge_succ_lt existingIds candidate (by assumption)

/-- The probe never moves below its starting candidate. -/
theorem le_nextId (existingIds : List Nat) (candidate : Nat) :
    candidate ≤ nextId existingIds candidate := by
  rw [nextId]
  by_cases h : candidate ∈ existingIds
  · simp only [h, if_true]
    exact le_trans (Nat.le_succ _) (le_nextId existingIds (candidate + 1))
  · simp [h]
termination_by existingIds.countP (fun y => candidate ≤ y)
decreasing_by exact countP_ge_succ_lt existingIds candidate (by assumption)

/-- The probe's result is never a member of the existing-id set. -/
theorem nextId_not_mem (existingIds : List Nat) (candidate : Nat) :
    nextId existingIds candidate ∉ existingIds := by
  rw [nextId]
  by_cases h : candidate ∈ existingIds
  · simp only [h, if_true]
    exact nextId_not_mem existingIds (candidate + 1)
  · simp [h]
termination_by existingIds.countP (fun y => candidate ≤ y)
decreasing_by exact countP_ge_succ_lt existingIds candidate (by assumption)

/-- `NewClubForm.nextId` in App.jsx: Math.floor(Math.random()*1000000)+1000
then probe upward.  The random draw is modelled by `rand % 1000000`. -/
def clubNextId (rand : Nat) (existingIds : List Nat) : Nat :=
  nextId existingIds (rand % 1000000 + 1000)

/-- `NewRequestForm.nextId` in App.jsx: Math.floor(Math.random()*1000000)+300
then probe upward.  The random draw is modelled by `rand % 1000000`. -/
def requestNextId (rand : Nat) (existingIds : List Nat) : Nat :=
  nextId existingIds (rand % 1000000 + 300)

/-- C6: id synthesis (a total function in this model, hence terminating for
every finite existing-id set, the empty one included) returns an id that is
not in the supplied existing-id set, and at least the entity kind's base
value (1000 for clubs, 300 for requests), for every random draw. -/
theorem nextId_fresh (rand : Nat) (clubIds requestIds : List Nat) :
    (clubNextId rand clubIds ∉ clubIds ∧ 1000 ≤ clubNextId rand clubIds) ∧
      (requestNextId rand requestIds ∉ requestIds ∧
        300 ≤ requestNextId rand requestIds) := by
  refine ⟨⟨nextId_not_mem _ _, ?_⟩, ⟨nextId_not_mem _ _, ?_⟩⟩
  · exact le_trans (by omega) (le_nextId clubIds (rand % 1000000 + 1000))
  · exact le_trans (by omega) (le_nextId requestIds (rand % 1000000 + 300))

/-- Exchange the elements at positions i and j of a list (the array swap
`[copy[i], copy[j]] = [copy[j], copy[i]]` in App.jsx); out-of-bounds indices
leave the list unchanged. -/
def listSwap {α : Type _} (l : List α) (i j : Nat) : List α :=
  match l[i]?, l[j]? with
  | some x, some y => (l.set i y).set j x
  | _, _ => l

/-- Replacing the element y found at position k by a, and re-consing y in
front, permutes a :: t. -/
theorem cons_set_perm {α : Type _} (t : List α) (k : Nat) (a y : α)
    (hk : t[k]? = some y) : (y :: t.set k a).Perm (a :: t) := by
  induction t generalizing k with
  | nil => simp at hk
  | cons b s ih =>
    cases k with
    | zero =>
      simp only [List.getElem?_cons_zero, Option.some.injEq] at hk
      subst hk
      rw [List.set_cons_zero]
      exact List.Perm.swap a b s
    | succ k =>
      rw [List.getElem?_cons_succ] at hk
      rw [List.set_cons_succ]
      have p1 : (y :: b :: s.set k a).Perm (b :: y :: s.set k a) :=
        List.Perm.swap b y _
      have p2 : (b :: y :: s.set k a).Perm (b :: a :: s) := (ih k hk).cons b
      have p3 : (b :: a :: s).Perm (a :: b :: s) := List.Perm.swap a b s
      exact (p1.trans p2).trans p3

/-- Swapping two positions of a list permutes it. -/
theorem listSwap_perm {α : Type _} (l : List α) (i j : Nat) :
    (listSwap l i j).Perm l := by
  induction l generalizing i j with
  | nil => simp [listSwap]
  | cons b s ih =>
    cases i with
    | zero =>
      cases j with
      | zero => simp [listSwap]
      | succ k =>
        cases hy : s[k]? with
        | none => simp [listSwap, hy]
        | some y =>
          have h1 : listSwap (b :: s) 0 (k + 1) = y :: s.set k b := by
            simp [listSwap, hy]
          rw [h1]
          exact cons_set_perm s k b y hy
    | succ m =>
      cases j with
      | zero =>
        cases hx : s[m]? with
        | none => simp [listSwap, hx]
        | some x =>
          have h1 : listSwap (b :: s) (m + 1) 0 = x :: s.set m b := by
            simp [listSwap, hx]
          rw [h1]
          exact cons_set_perm s m b x hx
      | succ k =>
        cases hx : s[m]? with
        | none => simp [listSwap, hx]
        | some x =>
          cases hy : s[k]? with
          | none => simp [listSwap, hx, hy]
          | some y =>
            have h1 : listSwap (b :: s) (m + 1) (k + 1)
                = b :: (s.set m y).set k x := by
              simp [listSwap, hx, hy]
            have h2 : listSwap s m k = (s.set m y).set k x := by
              simp [listSwap, hx, hy]
            rw [h1, ← h2]
            exact (ih m k).cons b

/-- The Fisher-Yates loop of `pickRandomUnique` in App.jsx: for i from the
high index down to 1, swap position i with position `rand i % (i + 1)`.  The
`Math.random()` draws are modelled by the draw function `rand`. -/
def fyShuffle {α : Type _} (rand : Nat → Nat) : Nat → List α → List α
  | 0, l => l
  | i + 1, l => fyShuffle rand i (listSwap l (i + 1) (rand (i + 1) % (i + 2)))

/-- The Fisher-Yates loop permutes its input. -/
theorem fyShuffle_perm {α : Type _} (rand : Nat → Nat) (i : Nat) (l : List α) :
    (fyShuffle rand i l).Perm l := by
  induction i generalizing l with
  | zero => exact List.Perm.refl l
  | succ i ih =>
    exact (ih _).trans (listSwap_perm l (i + 1) (rand (i + 1) % (i + 2)))

/-- `pickRandomUnique(arr, n)` from App.jsx: copy, Fisher-Yates shuffle, then
`slice(0, n)`. -/
def pickRandomUnique {α : Type _} (arr : List α) (n : Nat) (rand : Nat → Nat) :
    List α :=
  (fyShuffle rand (arr.length - 1) arr).take n

/-- C7: on a master list of pairwise-distinct tags, the tag sampler returns
exactly min(k, N) pairwise-distinct elements, each drawn from the master
list. -/
theorem pickRandomUnique_spec {α : Type _} (arr : List α) (n : Nat)
    (rand : Nat → Nat) (h : arr.Nodup) :
    (pickRandomUnique arr n rand).length = min n arr.length ∧
      (pickRandomUnique arr n rand).Nodup ∧
      ∀ x ∈ pickRandomUnique arr n rand, x ∈ arr := by
  have hperm := fyShuffle_perm rand (arr.length - 1) arr
  refine ⟨?_, ?_, ?_⟩
  · rw [pickRandomUnique, List.length_take, hperm.length_eq]
  · exact (List.take_sublist _ _).nodup (hperm.symm.nodup h)
  · intro x hx
    exact hperm.mem_iff.mp ((List.take_sublist _ _).mem hx)

/-- Witness for `pickRandomUnique_spec` on a concrete 3-element master list,
k = 2, and the constant-zero random draw. -/
theorem pickRandomUnique_spec_witness :
    ([1, 2, 3] : List Nat).Nodup ∧
      ((pickRandomUnique [1, 2, 3] 2 (fun _ => 0)).length = min 2 3 ∧
        (pickRandomUnique [1, 2, 3] 2 (fun _ => 0)).Nodup ∧
        ∀ x ∈ pickRandomUnique [1, 2, 3] 2 (fun _ => 0), x ∈ [1, 2, 3]) := by
  have hl : ([1, 2, 3] : List Nat).Nodup := by decide
  have hres := pickRandomUnique_spec ([1, 2, 3] : List Nat) 2 (fun _ => 0) hl
  have hlen : ([1, 2, 3] : List Nat).length = 3 := rfl
  exact ⟨hl, by rw [hlen] at hres; exact hres⟩

/-- The `split(",").map(s => s.trim()).filter(Boolean)` pattern used by both
entry forms for comma-separated tag fields. -/
def splitClean (s : Str) : List Str :=
  ((s.splitOn ',').map trim).filter (fun t => !t.isEmpty)

/-- The controlled inputs of NewClubForm in App.jsx. -/
structure ClubFormState where
  name : Str
  description : Str
  interests : Str
  vibes : Str
  collabNeeds : Str
  contact : Str
  deriving DecidableEq

/-- The App state NewClubForm submission affects: the user-added club list
and the register-modal open flag. -/
structure ClubPageState where
  userClubs : List Club
  isRegisterOpen : Bool
  deriving DecidableEq

/-- The new club record built by `NewClubForm.handleSubmit` in App.jsx. -/
def mkNewClub (rand : Nat) (existingIds : List Nat) (f : ClubFormState) :
    Club :=
  { id := clubNextId rand existingIds
  , name := some (trim f.name)
  , description := some (if (trim f.description).isEmpty
      then str "No description provided yet." else trim f.description)
  , interests := some (splitClean f.interests)
  , vibes := some (splitClean f.vibes)
  , collab_needs := some (splitClean f.collabNeeds)
  , contact := some (trim f.contact) }

/-- `NewClubForm.handleSubmit` composed with the `addClub` callback in
App.jsx: if the trimmed name is empty, return with no state change (the code
has no error channel, so nothing is surfaced); otherwise prepend the new
club to the user-added list and close the register modal. -/
def handleClubSubmit (rand : Nat) (existingIds : List Nat) (f : ClubFormState)
    (st : ClubPageState) : ClubPageState :=
  if (trim f.name).isEmpty then st
  else { userClubs := mkNewClub rand existingIds f :: st.userClubs
       , isRegisterOpen := false }

/-- The controlled inputs of NewRequestForm in App.jsx. -/
structure RequestFormState where
  clubName : Str
  title : Str
  description : Str
  needs : Str
  budget : Str
  date : Str
  timeWindow : Str
  contact : Str
  deriving DecidableEq

/-- The App state NewRequestForm submission affects. -/
structure RequestPageState where
  userRequests : List Request
  isRequestOpen : Bool
  deriving DecidableEq

/-- The new request record built by `NewRequestForm.handleSubmit` in
App.jsx. -/
def mkNewRequest (rand : Nat) (existingIds : List Nat)
    (f : RequestFormState) : Request :=
  { id := requestNextId rand existingIds
  , club_name := some (trim f.clubName)
  , title := some (trim f.title)
  , description := some (if (trim f.description).isEmpty
      then str "No description provided yet." else trim f.description)
  , needs := some (splitClean f.needs)
  , budget := some (trim f.budget)
  , date := some (trim f.date)
  , time_window := some (trim f.timeWindow)
  , contact := some (trim f.contact) }

/-- `NewRequestForm.handleSubmit` composed with the `addRequest` callback in
App.jsx: a no-op when the trimmed club name or the trimmed title is empty. -/
def handleRequestSubmit (rand : Nat) (existingIds : List Nat)
    (f : RequestFormState) (st : RequestPageState) : RequestPageState :=
  if (trim f.clubName).isEmpty || (trim f.title).isEmpty then st
  else { userRequests := mkNewRequest rand existingIds f :: st.userRequests
       , isRequestOpen := false }

/-- C9: submitting the club form with a name that is empty after trimming is
a no-op on the page state (no record appended, modal open flag untouched;
the code has no error channel, so no error is surfaced); for the request
form the same holds when the trimmed club name or the trimmed title is
empty. -/
theorem empty_required_fields_noop (rand : Nat) (ids rids : List Nat)
    (f : ClubFormState) (st : ClubPageState)
    (g : RequestFormState) (rst : RequestPageState) :
    (trim f.name = [] → handleClubSubmit rand ids f st = st) ∧
      ((trim g.clubName = [] ∨ trim g.title = []) →
        handleRequestSubmit rand rids g rst = rst) := by
  constructor
  · intro h
    simp [handleClubSubmit, h]
  · rintro (h | h) <;> simp [handleRequestSubmit, h]

/-- A club form whose name is whitespace only. -/
def blankClubForm : ClubFormState := ⟨str " ", [], [], [], [], []⟩

/-- A request form whose club name is whitespace only. -/
def blankRequestForm : RequestFormState :=
  ⟨str " ", str "t", [], [], [], [], [], []⟩

/-- Witness for `empty_required_fields_noop` at concrete forms and states. -/
theorem empty_required_fields_noop_witness :
    trim blankClubForm.name = [] ∧ trim blankRequestForm.clubName = [] ∧
      handleClubSubmit 0 [] blankClubForm ⟨[], true⟩ = ⟨[], true⟩ ∧
      handleRequestSubmit 0 [] blankRequestForm ⟨[], true⟩ = ⟨[], true⟩ :=
  ⟨by decide, by decide,
    (empty_required_fields_noop 0 [] [] blankClubForm ⟨[], true⟩
      blankRequestForm ⟨[], true⟩).1 (by decide),
    (empty_required_fields_noop 0 [] [] blankClubForm ⟨[], true⟩
      blankRequestForm ⟨[], true⟩).2 (Or.inl (by decide))⟩

end ClubSpotlight
